import Mathlib

/-!
Shallow embedding of the simple-notes-app repository:
* `src/unnamed/part_000` (the Supabase client initialization), and
* `src/notes_frontend/src/App.js` (the four repository wrappers
  `loadNotes`, `createNote`, `updateNote`, `deleteNote` and the
  view-controller handlers `handleSelect`, `handleCreate`, `handleChange`,
  `handleSave`, `handleDelete`).

Modelling conventions:
* Timestamps (`new Date().toISOString()`) are opaque values, modelled as `Nat`
  and passed in as an explicit `now` parameter.
* Note ids are server-assigned; modelled as `Nat`.
* The outcome of a remote call is passed to each wrapper as an explicit
  parameter (`none` / `false` = the call errored), since the remote store is
  outside the program.
* Each wrapper returns, alongside its value, a `Bool` recording whether it
  raised a user-visible `alert` (the source calls `alert(...)` in the error
  branch of create/update/delete and nowhere in `loadNotes`).
* A JS note object carries the five table columns; the editor display at
  App.js:394 reads a property `updated` that no column and no assignment ever
  provides, so the object model carries `updated : Option Nat` where `none`
  means the property is absent (reading it yields `undefined`).
-/

namespace NotesApp

/-- A note object as it flows through App.js: the five columns of the `notes`
table (App.js:89) plus the `updated` property read by the editor display
(App.js:394), which is absent (`none`) unless something were to assign it. -/
structure Note where
  id : Nat
  title : String
  content : String
  created_at : Nat
  updated_at : Nat
  updated : Option Nat := none
deriving Repr, DecidableEq

/-- The view-controller state: the five `useState` hooks of `App`
(App.js:90-94). -/
structure AppState where
  notes : List Note
  selectedId : Option Nat
  editingNote : Option Note
  loading : Bool
  saving : Bool
deriving Repr, DecidableEq

/-- The initial state given by the `useState` defaults (App.js:90-94). -/
def initialState : AppState :=
  { notes := [], selectedId := none, editingNote := none,
    loading := true, saving := false }

/-- Server-side semantics of `select('*').order('updated_at', { ascending:
false })` (App.js:19-22): the rows of the table sorted by `updated_at`
descending. -/
def selectNotesOrdered (table : List Note) : List Note :=
  table.mergeSort (fun a b => decide (b.updated_at ≤ a.updated_at))

/-- Embeds `loadNotes` (App.js:17-30): on error the notes become `[]`, on
success they become the fetched rows; `loading` is set `true` at entry and
`false` at exit, so it ends `false`. The second component records whether an
`alert` was raised: the error branch holds only a comment, never an alert.
`result = none` models `error` being set; `data || []` makes a null `data`
on success coincide with `some []`. -/
def loadNotes (s : AppState) (result : Option (List Note)) :
    AppState × Bool :=
  match result with
  | none => ({ s with loading := false, notes := [] }, false)
  | some data => ({ s with loading := false, notes := data }, false)

/-- Embeds `createNote` (App.js:35-46): inserts a row with empty title and
content and `created_at = updated_at = now`, returning the inserted record
(with the server-assigned id) via `data && data[0]`. `server = none` models
the call erroring (then `alert` fires and `null` is returned); `server =
some i` models success with assigned id `i`. -/
def createNote (now : Nat) (server : Option Nat) : Option Note × Bool :=
  match server with
  | none => (none, true)
  | some i =>
    (some { id := i, title := "", content := "", created_at := now,
            updated_at := now, updated := none }, false)

/-- Server-side effect of the update payload `{ title, content, updated_at:
now }` (App.js:55-59) on a stored row: exactly those three columns are
replaced, everything else is kept. -/
def updateRow (stored : Note) (title content : String) (now : Nat) : Note :=
  { stored with title := title, content := content, updated_at := now }

/-- Embeds `updateNote` (App.js:51-67): sends `{ title, content, updated_at:
now }` filtered by `eq('id', note.id)` and returns `data && data[0]`.
`server = none` models the call erroring (alert fires, `null` returned);
`server = some rows` models success where `rows` are the stored rows matched
by the id filter — the call returns the head of the updated rows, or `none`
when no row matched. -/
def updateNote (note : Note) (now : Nat) (server : Option (List Note)) :
    Option Note × Bool :=
  match server with
  | none => (none, true)
  | some rows =>
    ((rows.map (fun r => updateRow r note.title note.content now)).head?,
     false)

/-- Embeds `deleteNote` (App.js:72-82): returns `false` (after an alert) when
the remote call errors, `true` otherwise. -/
def deleteNote (_id : Nat) (serverOk : Bool) : Bool × Bool :=
  if serverOk then (true, false) else (false, true)

/-- The field edited through `handleChange` — `e.target.name` is either
`"title"` or `"content"` (the two form inputs, App.js:320 and App.js:336). -/
inductive Field where
  | title
  | content
deriving Repr, DecidableEq

/-- Writes one form field of the edit buffer (`[e.target.name]: e.target.value`,
App.js:124). -/
def setField (n : Note) (f : Field) (v : String) : Note :=
  match f with
  | .title => { n with title := v }
  | .content => { n with content := v }

/-- Embeds `setSaving(true)` at the start of a write handler. -/
def beginSaving (s : AppState) : AppState := { s with saving := true }

/-- Embeds `setSaving(false)` after the remote call resolves. -/
def endSaving (s : AppState) : AppState := { s with saving := false }

/-- Embeds `handleSelect` (App.js:102-106): records the selected id and copies
the matching note (if any) into a fresh edit buffer. -/
def handleSelect (s : AppState) (i : Nat) : AppState :=
  { s with selectedId := some i,
           editingNote := s.notes.find? (fun n => n.id == i) }

/-- The state updates `handleCreate` performs once `createNote` has resolved
(App.js:112-117). -/
def handleCreateResolve (s : AppState) (res : Option Note) : AppState :=
  match res with
  | some note =>
    { endSaving s with notes := note :: s.notes,
                       selectedId := some note.id,
                       editingNote := some note }
  | none => endSaving s

/-- Embeds `handleCreate` (App.js:109-118): sets `saving`, awaits
`createNote`, clears `saving`, and on success prepends the note, selects it
and copies it into the edit buffer. -/
def handleCreate (s : AppState) (now : Nat) (server : Option Nat) :
    AppState :=
  handleCreateResolve (beginSaving s) (createNote now server).1

/-- Embeds `handleChange` (App.js:121-127): spreads the current edit buffer,
overwrites the named field, and stamps `updated_at` with a fresh local
timestamp. Only the in-memory buffer is touched. The form that fires this
event is only rendered when a buffer exists (App.js:306), so the `none`
branch is unreachable in the program and modelled as the identity. -/
def handleChange (s : AppState) (f : Field) (v : String) (now : Nat) :
    AppState :=
  match s.editingNote with
  | some buf =>
    { s with editingNote := some { setField buf f v with updated_at := now } }
  | none => s

/-- Trimming applied to the buffer before saving (App.js:133-137). -/
def trimNote (n : Note) : Note :=
  { n with title := n.title.trim, content := n.content.trim }

/-- The state updates `handleSave` performs once `updateNote` has resolved
(App.js:139-143): on success, every list entry whose id equals the saved id
is replaced by the server-confirmed record, which also becomes the buffer. -/
def handleSaveResolve (s : AppState) (savedId : Nat) (res : Option Note) :
    AppState :=
  match res with
  | some updated =>
    { endSaving s with
        notes := s.notes.map (fun n => if n.id == savedId then updated else n),
        editingNote := some updated }
  | none => endSaving s

/-- Embeds `handleSave` (App.js:130-144): returns immediately when there is no
edit buffer; otherwise sets `saving`, sends the trimmed buffer through
`updateNote`, clears `saving`, and applies the result. -/
def handleSave (s : AppState) (now : Nat) (server : Option (List Note)) :
    AppState :=
  match s.editingNote with
  | none => s
  | some buf =>
    let trimmed := trimNote buf
    handleSaveResolve (beginSaving s) trimmed.id
      (updateNote trimmed now server).1

/-- The state updates `handleDelete` performs once `deleteNote` has resolved
(App.js:151-156): on success, entries with the selected id are filtered out
and selection and buffer are cleared. -/
def handleDeleteResolve (s : AppState) (i : Nat) (ok : Bool) : AppState :=
  if ok then
    { endSaving s with notes := s.notes.filter (fun n => n.id != i),
                       editingNote := none, selectedId := none }
  else endSaving s

/-- Embeds `handleDelete` (App.js:147-157): returns immediately when nothing
is selected; otherwise sets `saving`, awaits `deleteNote`, clears `saving`,
and applies the result. -/
def handleDelete (s : AppState) (serverOk : Bool) : AppState :=
  match s.selectedId with
  | none => s
  | some i => handleDeleteResolve (beginSaving s) i (deleteNote i serverOk).1

/-- One user/remote event of the view controller, with the remote outcome
attached. -/
inductive Action where
  | load (result : Option (List Note))
  | create (now : Nat) (server : Option Nat)
  | select (i : Nat)
  | change (f : Field) (v : String) (now : Nat)
  | save (now : Nat) (server : Option (List Note))
  | delete (serverOk : Bool)

/-- The controller's transition function: dispatch of one action to its
handler. -/
def step (s : AppState) : Action → AppState
  | .load r => (loadNotes s r).1
  | .create now sv => handleCreate s now sv
  | .select i => handleSelect s i
  | .change f v now => handleChange s f v now
  | .save now sv => handleSave s now sv
  | .delete ok => handleDelete s ok

/-- A run of `handleChange` events (field, value, timestamp), applied left to
right. -/
def applyEdits (s : AppState) (edits : List (Field × String × Nat)) :
    AppState :=
  edits.foldl (fun t e => handleChange t e.1 e.2.1 e.2.2) s

/-- The editor's "Last updated" display path (App.js:394-399): it is guarded
by and reads `editingNote.updated`; `none` means the guard is falsy and
nothing is rendered. -/
def lastUpdatedDisplay (buf : Note) : Option Nat := buf.updated

/-- All rows in a list lack the `updated` property (as all rows coming from
the five-column `notes` table do). -/
def rowsWF (l : List Note) : Prop := ∀ n ∈ l, n.updated = none

/-- No note object held in the state carries the `updated` property. -/
def noUpdatedField (s : AppState) : Prop :=
  rowsWF s.notes ∧ ∀ b, s.editingNote = some b → b.updated = none

/-- Rows handed over by the remote store lack the `updated` property (the
`notes` table has no such column). -/
def actionWF : Action → Prop
  | .load (some rows) => rowsWF rows
  | .save _ (some rows) => rowsWF rows
  | _ => True

/-- Embeds the credential lookup of src/unnamed/part_000 lines 8-9: JS
`a || b` falls through to `b` when `a` is `undefined` (`none`) or the empty
string. -/
def jsOr (a b : Option String) : Option String :=
  match a with
  | some s => if s = "" then b else some s
  | none => b

/-- JS truthiness of an optional string: `undefined` and `""` are falsy. -/
def truthyStr : Option String → Bool
  | none => false
  | some s => s != ""

/-- The four environment variables consulted by src/unnamed/part_000. -/
structure Env where
  REACT_APP_SUPABASE_URL : Option String
  SUPABASE_URL : Option String
  REACT_APP_SUPABASE_ANON_KEY : Option String
  SUPABASE_ANON_KEY : Option String

/-- The constructed data client: `createClient(supabaseUrl, supabaseAnonKey)`
(src/unnamed/part_000 line 15), reduced to the two values it is handed. -/
structure SupabaseClient where
  url : String
  anonKey : String
deriving Repr, DecidableEq

/-- Embeds src/unnamed/part_000 lines 8-15: resolve the two configuration
values with their fallbacks; if either is falsy, throw (the module fails to
initialize); otherwise construct the client. -/
def initSupabaseClient (env : Env) : Except String SupabaseClient :=
  let supabaseUrl := jsOr env.REACT_APP_SUPABASE_URL env.SUPABASE_URL
  let supabaseAnonKey :=
    jsOr env.REACT_APP_SUPABASE_ANON_KEY env.SUPABASE_ANON_KEY
  if !truthyStr supabaseUrl || !truthyStr supabaseAnonKey then
    .error "Supabase credentials are not set. Please check SUPABASE_URL and SUPABASE_ANON_KEY env variables."
  else
    .ok { url := supabaseUrl.getD "", anonKey := supabaseAnonKey.getD "" }

/-! Sample data used by witness theorems. -/

/-- A concrete note used to instantiate theorems with hypotheses. -/
def sampleNote : Note :=
  { id := 1, title := " Hello ", content := "World",
    created_at := 10, updated_at := 20 }

/-- A concrete state with `sampleNote` loaded, selected, and in the buffer. -/
def sampleState : AppState :=
  { notes := [sampleNote], selectedId := some 1,
    editingNote := some sampleNote, loading := false, saving := false }

/-! Helper lemmas. -/

/-- Filtering out the unique note carrying id `i` shortens the list by exactly
one. -/
theorem length_filter_ne_of_unique (i : Nat) (l : List Note)
    (huniq : l.Pairwise (fun m n => m.id ≠ n.id))
    (a : Note) (ha : a ∈ l) (hai : a.id = i) :
    (l.filter (fun n => n.id != i)).length + 1 = l.length := by
  induction l with
  | nil => cases ha
  | cons h t ih =>
    rw [List.pairwise_cons] at huniq
    by_cases hh : h.id = i
    · have ht : t.filter (fun n => n.id != i) = t := by
        apply List.filter_eq_self.mpr
        intro b hb
        simp only [bne_iff_ne, ne_eq]
        intro hbi
        exact (huniq.1 b hb) (by rw [hh, hbi])
      simp [List.filter_cons, hh, ht]
    · rcases List.mem_cons.mp ha with rfl | hat
      · exact absurd hai hh
      · have hrec := ih huniq.2 hat
        have hc : (h :: t).filter (fun n => n.id != i) =
            h :: t.filter (fun n => n.id != i) := by
          simp [List.filter_cons, hh]
        rw [hc, List.length_cons, List.length_cons]
        omega

/-! Claim theorems. -/

/-- Claim C1: a successful Create inserts a record with empty title, empty
content and `created_at = updated_at = now`; the record is prepended to the
note list, becomes the selected note, and a copy of it becomes the edit
buffer. -/
theorem create_success_prepends_and_selects (s : AppState) (now i : Nat) :
    ∃ note : Note,
      handleCreate s now (some i) =
        { s with saving := false, notes := note :: s.notes,
                 selectedId := some note.id, editingNote := some note } ∧
      note.title = "" ∧ note.content = "" ∧
      note.created_at = now ∧ note.updated_at = now ∧
      note.created_at = note.updated_at ∧ note.id = i := by
  exact ⟨{ id := i, title := "", content := "", created_at := now,
           updated_at := now, updated := none },
         rfl, rfl, rfl, rfl, rfl, rfl, rfl⟩

/-- Claim C2: with unique ids, a successful Delete of the selected note
removes exactly one entry (the one whose id matches the selection) and clears
both the selection and the edit buffer. -/
theorem delete_selected_removes_exactly_one (s : AppState) (i : Nat)
    (a : Note) (hsel : s.selectedId = some i)
    (huniq : s.notes.Pairwise (fun m n => m.id ≠ n.id))
    (ha : a ∈ s.notes) (hai : a.id = i) :
    (handleDelete s true).notes = s.notes.filter (fun n => n.id != i) ∧
    (handleDelete s true).notes.length + 1 = s.notes.length ∧
    (∀ n ∈ (handleDelete s true).notes, n.id ≠ i) ∧
    (handleDelete s true).selectedId = none ∧
    (handleDelete s true).editingNote = none := by
  have hd : handleDelete s true =
      { s with saving := false,
               notes := s.notes.filter (fun n => n.id != i),
               selectedId := none, editingNote := none } := by
    simp [handleDelete, hsel, deleteNote, handleDeleteResolve,
      endSaving, beginSaving]
  refine ⟨by rw [hd], ?_, ?_, by rw [hd], by rw [hd]⟩
  · rw [hd]
    exact length_filter_ne_of_unique i s.notes huniq a ha hai
  · rw [hd]
    intro n hn
    have := List.of_mem_filter hn
    simpa using this

/-- Claim C2 witness: deleting the selected note of `sampleState`. -/
theorem delete_selected_removes_exactly_one_witness :
    (handleDelete sampleState true).notes.length + 1
      = sampleState.notes.length ∧
    (handleDelete sampleState true).selectedId = none ∧
    (handleDelete sampleState true).editingNote = none := by
  have h := delete_selected_removes_exactly_one sampleState 1 sampleNote rfl
    (by simp [sampleState]) (by simp [sampleState]) rfl
  exact ⟨h.2.1, h.2.2.2.1, h.2.2.2.2⟩

/-- Claim C3: when the remote call of a write action fails, the note list,
the selection, the edit buffer and the loading flag are all unchanged; the
only state change is the `saving` flag, set at the start of the action and
back to `false` at the end. Create issues a remote call from every state;
Save and Delete issue one exactly when a buffer, respectively a selection,
exists, so their conjuncts carry that precondition. -/
theorem failed_write_only_resets_saving (s : AppState) (now : Nat) :
    (beginSaving s).saving = true ∧
    handleCreate s now none = { s with saving := false } ∧
    (∀ buf, s.editingNote = some buf →
      handleSave s now none = { s with saving := false }) ∧
    (∀ i, s.selectedId = some i →
      handleDelete s false = { s with saving := false }) := by
  refine ⟨rfl, rfl, ?_, ?_⟩
  · intro buf hbuf
    simp [handleSave, hbuf, updateNote, handleSaveResolve,
      endSaving, beginSaving]
  · intro i hsel
    simp [handleDelete, hsel, deleteNote, handleDeleteResolve,
      endSaving, beginSaving]

/-- Claim C3 witness: a failed Create on the initial (Idle/Unselected) state
and failed Save/Delete on `sampleState` only reset `saving`. -/
theorem failed_write_only_resets_saving_witness :
    handleCreate initialState 0 none
      = { initialState with saving := false } ∧
    handleSave sampleState 0 none = { sampleState with saving := false } ∧
    handleDelete sampleState false = { sampleState with saving := false } := by
  have h1 := failed_write_only_resets_saving initialState 0
  have h2 := failed_write_only_resets_saving sampleState 0
  exact ⟨h1.2.1, h2.2.2.1 sampleNote rfl, h2.2.2.2 1 rfl⟩

/-- Claim C4: an Update writes back exactly title, content and a fresh
`updated_at`; the stored row's `id` and `created_at` are never changed. -/
theorem update_preserves_id_and_created_at (note : Note) (now : Nat)
    (stored : Note) (rest : List Note) :
    (updateNote note now (some (stored :: rest))).1
      = some (updateRow stored note.title note.content now) ∧
    (updateRow stored note.title note.content now).id = stored.id ∧
    (updateRow stored note.title note.content now).created_at
      = stored.created_at ∧
    (updateRow stored note.title note.content now).title = note.title ∧
    (updateRow stored note.title note.content now).content = note.content ∧
    (updateRow stored note.title note.content now).updated_at = now := by
  exact ⟨rfl, rfl, rfl, rfl, rfl, rfl⟩

/-- Helper: `handleChange` never touches the note list. -/
theorem handleChange_notes (s : AppState) (f : Field) (v : String)
    (now : Nat) : (handleChange s f v now).notes = s.notes := by
  cases hE : s.editingNote <;> simp [handleChange, hE]

/-- Helper: a run of `handleChange` events never touches the note list. -/
theorem applyEdits_notes (s : AppState)
    (edits : List (Field × String × Nat)) :
    (applyEdits s edits).notes = s.notes := by
  induction edits generalizing s with
  | nil => rfl
  | cons e es ih =>
    have hstep : applyEdits s (e :: es)
        = applyEdits (handleChange s e.1 e.2.1 e.2.2) es := rfl
    rw [hstep, ih, handleChange_notes]

/-- Claim C5: after any run of edits to the current buffer, selecting note B
leaves the note list exactly as it was (the unsaved edits are discarded,
never written to the list) and replaces the buffer by a fresh copy of B
looked up in the list. -/
theorem select_discards_unsaved_edits (s : AppState)
    (edits : List (Field × String × Nat)) (idB : Nat) :
    (handleSelect (applyEdits s edits) idB).notes = s.notes ∧
    (handleSelect (applyEdits s edits) idB).editingNote
      = s.notes.find? (fun n => n.id == idB) ∧
    (handleSelect (applyEdits s edits) idB).selectedId = some idB := by
  refine ⟨?_, ?_, rfl⟩
  · show (applyEdits s edits).notes = s.notes
    exact applyEdits_notes s edits
  · show (applyEdits s edits).notes.find? (fun n => n.id == idB)
        = s.notes.find? (fun n => n.id == idB)
    rw [applyEdits_notes]

/-- Claim C6: a Save on a non-empty buffer persists the trimmed title and
content; on success the list entry whose id matches the buffer's id is
replaced by the server-confirmed record, that record becomes the buffer, and
the selection is unchanged. -/
theorem save_trims_and_replaces (s : AppState) (now : Nat)
    (buf stored : Note) (hbuf : s.editingNote = some buf)
    (hid : stored.id = buf.id) :
    handleSave s now (some [stored]) =
      { s with saving := false,
               notes := s.notes.map (fun n =>
                 if n.id == buf.id then
                   updateRow stored buf.title.trim buf.content.trim now
                 else n),
               editingNote :=
                 some (updateRow stored buf.title.trim buf.content.trim now) } ∧
    (updateRow stored buf.title.trim buf.content.trim now).title
      = buf.title.trim ∧
    (updateRow stored buf.title.trim buf.content.trim now).content
      = buf.content.trim ∧
    (updateRow stored buf.title.trim buf.content.trim now).id = buf.id ∧
    (updateRow stored buf.title.trim buf.content.trim now).updated_at
      = now ∧
    (handleSave s now (some [stored])).selectedId = s.selectedId := by
  have hmain : handleSave s now (some [stored]) =
      { s with saving := false,
               notes := s.notes.map (fun n =>
                 if n.id == buf.id then
                   updateRow stored buf.title.trim buf.content.trim now
                 else n),
               editingNote :=
                 some (updateRow stored buf.title.trim buf.content.trim
                   now) } := by
    simp [handleSave, hbuf, updateNote, handleSaveResolve, trimNote,
      updateRow, endSaving, beginSaving]
  refine ⟨hmain, rfl, rfl, ?_, rfl, by rw [hmain]⟩
  · show stored.id = buf.id
    exact hid

/-- Claim C6 witness: saving `sampleState`'s buffer with the stored row being
`sampleNote` itself. -/
theorem save_trims_and_replaces_witness :
    handleSave sampleState 5 (some [sampleNote]) =
      { sampleState with
          saving := false,
          notes := sampleState.notes.map (fun n =>
            if n.id == sampleNote.id then
              updateRow sampleNote sampleNote.title.trim
                sampleNote.content.trim 5
            else n),
          editingNote := some (updateRow sampleNote sampleNote.title.trim
            sampleNote.content.trim 5) } ∧
    (updateRow sampleNote sampleNote.title.trim sampleNote.content.trim
      5).title = sampleNote.title.trim := by
  have h := save_trims_and_replaces sampleState 5 sampleNote sampleNote
    rfl rfl
  exact ⟨h.1, h.2.1⟩

/-- Claim C7: a failed List yields the empty note list, raises no alert and
changes nothing else; a successful List yields all fetched rows ordered by
`updated_at` descending. -/
theorem load_failure_empty_success_ordered (s : AppState)
    (table : List Note) :
    (loadNotes s none).1 = { s with loading := false, notes := [] } ∧
    (loadNotes s none).2 = false ∧
    (loadNotes s (some (selectNotesOrdered table))).2 = false ∧
    (loadNotes s (some (selectNotesOrdered table))).1.notes.Perm table ∧
    (loadNotes s (some (selectNotesOrdered table))).1.notes.Pairwise
      (fun a b => b.updated_at ≤ a.updated_at) := by
  refine ⟨rfl, rfl, rfl, ?_, ?_⟩
  · show (selectNotesOrdered table).Perm table
    exact List.mergeSort_perm table _
  · show (selectNotesOrdered table).Pairwise
      (fun a b => b.updated_at ≤ a.updated_at)
    have h := @List.sorted_mergeSort Note
      (fun a b => decide (b.updated_at ≤ a.updated_at))
      (fun a b c hab hbc => by
        simp only [decide_eq_true_eq] at *
        omega)
      (fun a b => by
        simp only [Bool.or_eq_true, decide_eq_true_eq]
        omega)
      table
    simpa [selectNotesOrdered] using h

/-- Claim C10: with an empty edit buffer, Save returns the state untouched
whatever the remote would answer (no call is issued, `saving` is not
touched); with no selection, Delete likewise returns the state untouched. -/
theorem save_delete_noop_without_buffer_or_selection (s : AppState)
    (now : Nat) :
    (s.editingNote = none →
      ∀ server, handleSave s now server = s) ∧
    (s.selectedId = none →
      ∀ serverOk, handleDelete s serverOk = s) := by
  constructor
  · intro h server
    simp [handleSave, h]
  · intro h serverOk
    simp [handleDelete, h]

/-- Helper: writing a form field does not touch the `updated` property. -/
theorem setField_updated (n : Note) (f : Field) (v : String) :
    (setField n f v).updated = n.updated := by
  cases f <;> rfl

/-- Helper: no transition of the controller ever writes the `updated`
property — if no note object in the state carries it and the remote rows
handed over lack it, the successor state carries it nowhere either. -/
theorem step_preserves_noUpdatedField (s : AppState) (a : Action)
    (hs : noUpdatedField s) (ha : actionWF a) :
    noUpdatedField (step s a) := by
  obtain ⟨hnotes, hbuf⟩ := hs
  cases a with
  | load r =>
    cases r with
    | none =>
      refine ⟨?_, ?_⟩
      · intro n hn
        simp [step, loadNotes] at hn
      · intro b hb
        exact hbuf b hb
    | some rows =>
      refine ⟨?_, ?_⟩
      · intro n hn
        exact ha n (by simpa [step, loadNotes] using hn)
      · intro b hb
        exact hbuf b hb
  | create now sv =>
    cases sv with
    | none =>
      refine ⟨?_, ?_⟩
      · intro n hn
        exact hnotes n (by simpa [step, handleCreate, createNote,
          handleCreateResolve, endSaving, beginSaving] using hn)
      · intro b hb
        exact hbuf b (by simpa [step, handleCreate, createNote,
          handleCreateResolve, endSaving, beginSaving] using hb)
    | some i =>
      refine ⟨?_, ?_⟩
      · intro n hn
        simp [step, handleCreate, createNote, handleCreateResolve,
          endSaving, beginSaving] at hn
        rcases hn with rfl | hn
        · rfl
        · exact hnotes n hn
      · intro b hb
        simp [step, handleCreate, createNote, handleCreateResolve,
          endSaving, beginSaving] at hb
        rw [← hb]
  | select i =>
    refine ⟨?_, ?_⟩
    · intro n hn
      exact hnotes n (by simpa [step, handleSelect] using hn)
    · intro b hb
      have hb' : s.notes.find? (fun n => n.id == i) = some b := hb
      exact hnotes b (List.mem_of_find?_eq_some hb')
  | change f v now =>
    cases hE : s.editingNote with
    | none =>
      refine ⟨?_, ?_⟩
      · intro n hn
        exact hnotes n (by simpa [step, handleChange, hE] using hn)
      · intro b hb
        simp [step, handleChange, hE] at hb
    | some buf =>
      refine ⟨?_, ?_⟩
      · intro n hn
        exact hnotes n (by simpa [step, handleChange, hE] using hn)
      · intro b hb
        simp [step, handleChange, hE] at hb
        rw [← hb]
        show (setField buf f v).updated = none
        rw [setField_updated]
        exact hbuf buf hE
  | save now sv =>
    cases hE : s.editingNote with
    | none =>
      refine ⟨?_, ?_⟩
      · intro n hn
        exact hnotes n (by simpa [step, handleSave, hE] using hn)
      · intro b hb
        simp [step, handleSave, hE] at hb
    | some buf =>
      cases sv with
      | none =>
        refine ⟨?_, ?_⟩
        · intro n hn
          exact hnotes n (by simpa [step, handleSave, hE, updateNote,
            handleSaveResolve, endSaving, beginSaving] using hn)
        · intro b hb
          exact hbuf b (by simpa [step, handleSave, hE, updateNote,
            handleSaveResolve, endSaving, beginSaving] using hb)
      | some rows =>
        cases rows with
        | nil =>
          refine ⟨?_, ?_⟩
          · intro n hn
            exact hnotes n (by simpa [step, handleSave, hE, updateNote,
              handleSaveResolve, endSaving, beginSaving] using hn)
          · intro b hb
            exact hbuf b (by simpa [step, handleSave, hE, updateNote,
              handleSaveResolve, endSaving, beginSaving] using hb)
        | cons r rest =>
          have hr : r.updated = none := ha r (List.mem_cons_self r rest)
          refine ⟨?_, ?_⟩
          · intro n hn
            simp [step, handleSave, hE, updateNote, handleSaveResolve,
              endSaving, beginSaving] at hn
            rcases hn with ⟨m, hm, hmn⟩
            by_cases hid : m.id = (trimNote buf).id
            · rw [if_pos hid] at hmn
              rw [← hmn]
              show r.updated = none
              exact hr
            · rw [if_neg hid] at hmn
              rw [← hmn]
              exact hnotes m hm
          · intro b hb
            simp [step, handleSave, hE, updateNote, handleSaveResolve,
              endSaving, beginSaving] at hb
            rw [← hb]
            show r.updated = none
            exact hr
  | delete ok =>
    cases hE : s.selectedId with
    | none =>
      refine ⟨?_, ?_⟩
      · intro n hn
        exact hnotes n (by simpa [step, handleDelete, hE] using hn)
      · intro b hb
        exact hbuf b (by simpa [step, handleDelete, hE] using hb)
    | some i =>
      cases ok with
      | false =>
        refine ⟨?_, ?_⟩
        · intro n hn
          exact hnotes n (by simpa [step, handleDelete, hE, deleteNote,
            handleDeleteResolve, endSaving, beginSaving] using hn)
        · intro b hb
          exact hbuf b (by simpa [step, handleDelete, hE, deleteNote,
            handleDeleteResolve, endSaving, beginSaving] using hb)
      | true =>
        refine ⟨?_, ?_⟩
        · intro n hn
          simp [step, handleDelete, hE, deleteNote,
            handleDeleteResolve, endSaving, beginSaving] at hn
          exact hnotes n hn.1
        · intro b hb
          simp [step, handleDelete, hE, deleteNote, handleDeleteResolve,
            endSaving, beginSaving] at hb

/-- Claim C8: every field change stamps the edit buffer's `updated_at` with
the fresh local timestamp, but the "Last updated" display reads the
differently-named `updated` property, which no controller transition ever
sets (it is absent initially and preserved absent by every action whose
remote rows come from the five-column table) — so the stamped preview is
never shown by that path. -/
theorem change_stamps_but_preview_never_displayed (s : AppState) (f : Field)
    (v : String) (now : Nat) (buf : Note)
    (hbuf : s.editingNote = some buf) (hwf : noUpdatedField s) :
    (∃ buf', (handleChange s f v now).editingNote = some buf' ∧
       buf'.updated_at = now ∧ buf'.updated = buf.updated ∧
       lastUpdatedDisplay buf' = none) ∧
    noUpdatedField initialState ∧
    (∀ t a, noUpdatedField t → actionWF a → noUpdatedField (step t a)) := by
  refine ⟨?_, ?_, step_preserves_noUpdatedField⟩
  · refine ⟨{ setField buf f v with updated_at := now },
      by simp [handleChange, hbuf], rfl, setField_updated buf f v, ?_⟩
    show (setField buf f v).updated = none
    rw [setField_updated]
    exact hwf.2 buf hbuf
  · exact ⟨fun n hn => by simp [initialState] at hn,
      fun b hb => by simp [initialState] at hb⟩

/-- Claim C8 witness: one keystroke on `sampleState` stamps `updated_at := 99`
while the display path still reads nothing. -/
theorem change_stamps_but_preview_never_displayed_witness :
    ∃ buf', (handleChange sampleState .title "Hi" 99).editingNote
        = some buf' ∧
      buf'.updated_at = 99 ∧ buf'.updated = sampleNote.updated ∧
      lastUpdatedDisplay buf' = none :=
  (change_stamps_but_preview_never_displayed sampleState .title "Hi" 99
    sampleNote rfl
    ⟨fun n hn => by
        simp [sampleState] at hn
        rw [hn]
        rfl,
      fun b hb => by
        simp [sampleState] at hb
        rw [← hb]
        rfl⟩).1

/-- Claim C9: initialization fails with an error exactly when either resolved
configuration value (endpoint URL, public access key) is missing or empty;
when both are present the client is constructed and no error is raised. -/
theorem missing_config_is_fatal (env : Env) :
    (truthyStr (jsOr env.REACT_APP_SUPABASE_URL env.SUPABASE_URL) = false ∨
      truthyStr (jsOr env.REACT_APP_SUPABASE_ANON_KEY env.SUPABASE_ANON_KEY)
        = false →
      ∃ msg, initSupabaseClient env = .error msg) ∧
    (truthyStr (jsOr env.REACT_APP_SUPABASE_URL env.SUPABASE_URL) = true →
      truthyStr (jsOr env.REACT_APP_SUPABASE_ANON_KEY env.SUPABASE_ANON_KEY)
        = true →
      ∃ c, initSupabaseClient env = .ok c) := by
  constructor
  · intro h
    refine ⟨"Supabase credentials are not set. Please check SUPABASE_URL and SUPABASE_ANON_KEY env variables.", ?_⟩
    rcases h with h | h <;> simp [initSupabaseClient, h]
  · intro h1 h2
    refine ⟨{ url := (jsOr env.REACT_APP_SUPABASE_URL env.SUPABASE_URL).getD "",
              anonKey := (jsOr env.REACT_APP_SUPABASE_ANON_KEY
                env.SUPABASE_ANON_KEY).getD "" }, ?_⟩
    simp [initSupabaseClient, h1, h2]

/-- Claim C9 witness: an empty environment is fatal; a fully configured one
constructs the client. -/
theorem missing_config_is_fatal_witness :
    (∃ msg, initSupabaseClient
      { REACT_APP_SUPABASE_URL := none, SUPABASE_URL := none,
        REACT_APP_SUPABASE_ANON_KEY := none, SUPABASE_ANON_KEY := none }
      = .error msg) ∧
    (∃ c, initSupabaseClient
      { REACT_APP_SUPABASE_URL := some "https://example.supabase.co",
        SUPABASE_URL := none,
        REACT_APP_SUPABASE_ANON_KEY := some "public-anon-key",
        SUPABASE_ANON_KEY := none }
      = .ok c) :=
  ⟨(missing_config_is_fatal
      { REACT_APP_SUPABASE_URL := none, SUPABASE_URL := none,
        REACT_APP_SUPABASE_ANON_KEY := none, SUPABASE_ANON_KEY := none }).1
    (Or.inl rfl),
   (missing_config_is_fatal
      { REACT_APP_SUPABASE_URL := some "https://example.supabase.co",
        SUPABASE_URL := none,
        REACT_APP_SUPABASE_ANON_KEY := some "public-anon-key",
        SUPABASE_ANON_KEY := none }).2 (by decide) (by decide)⟩

/-- Claim C10 witness: Save and Delete are no-ops on the initial state. -/
theorem save_delete_noop_witness :
    handleSave initialState 0 none = initialState ∧
    handleDelete initialState false = initialState :=
  ⟨(save_delete_noop_without_buffer_or_selection initialState 0).1 rfl none,
   (save_delete_noop_without_buffer_or_selection initialState 0).2 rfl false⟩

end NotesApp
